import Mathlib

/-!
Verification of the resumable batch evaluation engine of the
agir-hospital-experiments repository.

The definitions below are shallow embeddings of the Python sources:
  * `src/dental/benchmark_base.py`      (class `DentalBenchmark`)
  * `src/dental/openai_benchmark_base.py` (class `OpenAIBenchmark`)
  * `src/dental/agir/agir_dental_benchmark.py`
  * `src/dental/agir/agir_benchmark.py` (dreaddit binary engine)

External effects are made explicit: the completion service is an oracle
function from the item index to a response (or a failure), files are
values (lists of records / optional stored structures), and each loop is
a structurally recursive function over the remaining work list.
-/

namespace DentalBench

/-- A parsed dataset record (one JSONL line of `dental_valid.jsonl`):
`id`, question text, the four options and the 0-based correct option `cop`. -/
structure Question where
  id : String
  question : String
  opa : String
  opb : String
  opc : String
  opd : String
  cop : Int
  deriving DecidableEq, Repr

/-! ## Grader: answer extraction and grading -/

/-- Python's whitespace class for `str.strip()` (ASCII cases). -/
def isPyWS (c : Char) : Bool :=
  c = ' ' || c = '\t' || c = '\n' || c = '\r' || c = '\x0b' || c = '\x0c'

/-- Python `str.strip()` on a character list: drop whitespace at both ends. -/
def strip (l : List Char) : List Char :=
  ((l.dropWhile isPyWS).reverse.dropWhile isPyWS).reverse

/-- Python `response.strip().upper()`, the cleaning step shared by
`extract_answer_choice` and `extract_answer`. -/
def clean_response (response : String) : List Char :=
  (strip response.data).map Char.toUpper

/-- The loop `for char in ['A', 'B', 'C', 'D']: if char in response_clean: return char`
from `DentalBenchmark.extract_answer_choice` (and the identical loop in
`agir_dental_benchmark.extract_answer`): the first label in the fixed
order A, B, C, D whose character occurs anywhere in the text. -/
def firstLabelIn (s : List Char) : Option Char :=
  if 'A' ∈ s then some 'A'
  else if 'B' ∈ s then some 'B'
  else if 'C' ∈ s then some 'C'
  else if 'D' ∈ s then some 'D'
  else none

/-- `DentalBenchmark.extract_answer_choice` (benchmark_base.py lines 106-119):
strip + upper; exact single-letter match; otherwise the A-D loop; else UNKNOWN. -/
def extract_answer_choice (response : String) : String :=
  if clean_response response = ['A'] ∨ clean_response response = ['B'] ∨
      clean_response response = ['C'] ∨ clean_response response = ['D'] then
    String.mk (clean_response response)
  else
    match firstLabelIn (clean_response response) with
    | some c => String.mk [c]
    | none => "UNKNOWN"

/-- `agir_dental_benchmark.extract_answer` (lines 135-148): falsy response
gives INVALID; otherwise strip + upper and the A-D loop; else INVALID. -/
def extract_answer (response : String) : String :=
  if response = "" then "INVALID"
  else
    match firstLabelIn (clean_response response) with
    | some c => String.mk [c]
    | none => "INVALID"

/-- The dict `{0: 'A', 1: 'B', 2: 'C', 3: 'D'}` with `.get(correct_option, '')`
used by `DentalBenchmark.evaluate_answer`. -/
def option_map (cop : Int) : String :=
  if cop = 0 then "A"
  else if cop = 1 then "B"
  else if cop = 2 then "C"
  else if cop = 3 then "D"
  else ""

/-- `DentalBenchmark.evaluate_answer` (benchmark_base.py lines 121-126). -/
def evaluate_answer (predicted : String) (cop : Int) : Bool :=
  predicted == option_map cop

/-- `DentalBenchmark.get_correct_option_letter`: the dict
`{0: 'A', 1: 'B', 2: 'C', 3: 'D', -1: 'UNKNOWN'}` with default UNKNOWN. -/
def get_correct_option_letter (cop : Int) : String :=
  if cop = 0 then "A"
  else if cop = 1 then "B"
  else if cop = 2 then "C"
  else if cop = 3 then "D"
  else "UNKNOWN"

/-- The correct-answer derivation in `agir_dental_benchmark.process_question`
(lines 166-171): `chr(ord('A') + cop)` when `cop in [0, 1, 2, 3]`, else UNKNOWN. -/
def agir_correct_answer (cop : Int) : String :=
  if cop = 0 then "A"
  else if cop = 1 then "B"
  else if cop = 2 then "C"
  else if cop = 3 then "D"
  else "UNKNOWN"

/-- `is_correct = predicted_answer == correct_answer and predicted_answer != "INVALID"`
from `agir_dental_benchmark.process_question` line 173. -/
def agir_is_correct (predicted correct : String) : Bool :=
  predicted == correct && predicted != "INVALID"

/-! ## Dreaddit binary engine label extraction (`agir_benchmark.process_entry`) -/

/-- Substring containment on character lists (Python's `needle in haystack`). -/
def substrIn (needle : List Char) : List Char → Bool
  | [] => needle.isEmpty
  | c :: cs => needle.isPrefixOf (c :: cs) || substrIn needle cs

/-- The keyword list of `agir_benchmark.process_entry` line 132. -/
def distressKeywords : List String := ["stress", "distress", "anxiety", "trauma", "yes"]

/-- The predicted-label derivation of `agir_benchmark.process_entry`
(lines 124-136): prefer a literal 0, then a literal 1, otherwise infer 1
from a distress keyword in the lowercased response and 0 if none occurs. -/
def stress_predicted_label (response : String) : String :=
  if '0' ∈ response.data then "0"
  else if '1' ∈ response.data then "1"
  else if distressKeywords.any (fun w => substrIn w.data (response.data.map Char.toLower)) then "1"
  else "0"

/-! ## Base engine (`DentalBenchmark.run_benchmark`, benchmark_base.py 138-216)

The completion service is an oracle from the item index to `Except String String`:
`.ok response` when `query_model` returns, `.error e` when it raises. -/

/-- The fields of one result row that the claims are about (the remaining
columns of the CSV row carry the question text and provenance verbatim). -/
structure BaseResult where
  question_id : String
  predicted_answer : String
  is_correct : Bool
  response : String
  deriving DecidableEq, Repr

/-- One iteration body of `DentalBenchmark.run_benchmark`: query, extract,
grade; the except branch (lines 180-196) records predicted ERROR,
`is_correct = False` and `f"Error: {e}"` as the response. -/
def base_process (oracle : Nat → Except String String) (i : Nat) (q : Question) : BaseResult :=
  match oracle i with
  | .ok response =>
      { question_id := q.id
        predicted_answer := extract_answer_choice response
        is_correct := evaluate_answer (extract_answer_choice response) q.cop
        response := response }
  | .error e =>
      { question_id := q.id
        predicted_answer := "ERROR"
        is_correct := false
        response := "Error: " ++ e }

/-- The loop of `DentalBenchmark.run_benchmark` over the questions starting
at index `i`: every iteration appends exactly one result (written to the
CSV inside the iteration, before the next item starts), so the returned
list is both the in-memory result list and the CSV content. -/
def base_run_go (oracle : Nat → Except String String) : Nat → List Question → List BaseResult
  | _, [] => []
  | i, q :: qs => base_process oracle i q :: base_run_go oracle (i + 1) qs

/-! ## Checkpointed OpenAI engine (`OpenAIBenchmark`, openai_benchmark_base.py) -/

/-- The checkpoint record written by `OpenAIBenchmark.save_checkpoint`
(lines 87-113): data path and question count (the fingerprint), the
current index, and the full list of results so far. -/
structure Checkpoint where
  data_path : String
  total_questions : Nat
  current_index : Nat
  results_so_far : List BaseResult
  deriving DecidableEq, Repr

/-- `OpenAIBenchmark.save_checkpoint`. -/
def save_checkpoint (path : String) (total i : Nat) (results : List BaseResult) : Checkpoint :=
  { data_path := path, total_questions := total, current_index := i, results_so_far := results }

/-- `OpenAIBenchmark.load_checkpoint` (lines 115-141): missing file gives
`(0, [])`; a stored checkpoint whose `data_path` or `total_questions`
mismatch the current run is discarded, giving `(0, [])`; otherwise the
stored index and results are returned. -/
def load_checkpoint (stored : Option Checkpoint) (path : String) (numQuestions : Nat) :
    Nat × List BaseResult :=
  match stored with
  | none => (0, [])
  | some c =>
      if c.data_path ≠ path then (0, [])
      else if c.total_questions ≠ numQuestions then (0, [])
      else (c.current_index, c.results_so_far)

/-- The engine state: the durably stored checkpoint file (the only durable
store `OpenAIBenchmark.run_benchmark` writes during the loop) and the
in-memory result list. -/
structure CkptState where
  ckpt : Option Checkpoint
  results : List BaseResult
  deriving DecidableEq, Repr

/-- Number of results durably stored: the checkpoint's result list, or 0
when no checkpoint file exists. -/
def durableCount (st : CkptState) : Nat :=
  match st.ckpt with
  | none => 0
  | some c => c.results_so_far.length

/-- One iteration body of `OpenAIBenchmark.run_benchmark` (lines 174-223):
the per-item work is the same query/extract/grade (or ERROR record) as the
base engine; the graded result is appended in memory only, and a checkpoint
is saved when `(i + 1) % save_frequency == 0` on success, and always on
the per-item error path. -/
def openai_step (oracle : Nat → Except String String) (path : String) (total freq i : Nat)
    (q : Question) (st : CkptState) : CkptState :=
  match oracle i with
  | .ok _ =>
      if (i + 1) % freq = 0 then
        { ckpt := some (save_checkpoint path total (i + 1) (st.results ++ [base_process oracle i q]))
          results := st.results ++ [base_process oracle i q] }
      else
        { ckpt := st.ckpt, results := st.results ++ [base_process oracle i q] }
  | .error _ =>
      { ckpt := some (save_checkpoint path total (i + 1) (st.results ++ [base_process oracle i q]))
        results := st.results ++ [base_process oracle i q] }

/-- The loop of `OpenAIBenchmark.run_benchmark` over the questions starting
at index `i`. -/
def openai_run_go (oracle : Nat → Except String String) (path : String) (total freq : Nat) :
    Nat → List Question → CkptState → CkptState
  | _, [], st => st
  | i, q :: qs, st =>
      openai_run_go oracle path total freq (i + 1) qs (openai_step oracle path total freq i q st)

/-- `OpenAIBenchmark.clear_checkpoint` (lines 143-148): delete the
checkpoint file. -/
def clear_checkpoint (st : CkptState) : CkptState :=
  { st with ckpt := none }

/-- A full `OpenAIBenchmark.run_benchmark` invocation from a fresh state
(no checkpoint): run the loop over all questions with the default
`save_frequency = 5`, then `clear_checkpoint` on successful completion
(line 245). -/
def openai_run_full (oracle : Nat → Except String String) (path : String) (qs : List Question) :
    CkptState :=
  clear_checkpoint (openai_run_go oracle path qs.length 5 0 qs { ckpt := none, results := [] })

/-- External completion calls made by an index-resumed engine run: the
`for i in range(start_index, total)` loop issues exactly one completion
request per remaining item. -/
def engine_calls (qs : List Question) (start : Nat) : Nat :=
  (qs.drop start).length

/-! ## Agir dental engine (`agir_dental_benchmark.py`) -/

/-- The progress record written by `agir_dental_benchmark.save_progress`
(time fields omitted: the resume logic reads only `last_processed_index`). -/
structure Progress where
  processed_count : Nat
  total_count : Nat
  last_processed_index : Nat
  deriving DecidableEq, Repr

/-- `agir_dental_benchmark.save_progress` (lines 242-257): `main` calls it
with `current_index`, the index of the question that was just processed. -/
def save_progress (processed_count total_count last_processed_index : Nat) : Progress :=
  { processed_count := processed_count
    total_count := total_count
    last_processed_index := last_processed_index }

/-- `agir_dental_benchmark.get_last_processed_index` (lines 56-67): 0 when
the progress file is missing, otherwise the stored `last_processed_index`
unconditionally — no fingerprint of the dataset is checked. -/
def get_last_processed_index (stored : Option Progress) : Nat :=
  match stored with
  | none => 0
  | some p => p.last_processed_index

/-- One result record of `agir_dental_benchmark.process_question`
(option texts, timestamp and subject omitted). -/
structure AgirResult where
  question_id : String
  question_index : Nat
  correct_answer : String
  predicted_answer : String
  is_correct : Bool
  raw_response : String
  deriving DecidableEq, Repr

/-- `agir_dental_benchmark.process_question` (lines 150-193): `None` when
the completion call failed after its retries; otherwise one record with
the extracted answer graded against `cop`. -/
def process_question (oracle : Nat → Option String) (i : Nat) (q : Question) :
    Option AgirResult :=
  match oracle i with
  | none => none
  | some response =>
      some { question_id := q.id
             question_index := i
             correct_answer := agir_correct_answer q.cop
             predicted_answer := extract_answer response
             is_correct := agir_is_correct (extract_answer response) (agir_correct_answer q.cop)
             raw_response := response }

/-- The question loop of `agir_dental_benchmark.main` (lines 412-439) over
the remaining questions with `i` the current absolute index: a successful
item is saved with `save_result`; a failed item is only logged — nothing
is recorded for it — and the loop continues. -/
def agir_run_go (oracle : Nat → Option String) : Nat → List Question → List AgirResult
  | _, [] => []
  | i, q :: qs =>
      match process_question oracle i q with
      | some r => r :: agir_run_go oracle (i + 1) qs
      | none => agir_run_go oracle (i + 1) qs

/-- `main`'s `questions_to_process = questions[start_index:]` followed by
the loop: process the suffix from `start` with absolute indices. -/
def agir_run_from (oracle : Nat → Option String) (qs : List Question) (start : Nat) :
    List AgirResult :=
  agir_run_go oracle start (qs.drop start)

/-- An always-successful completion oracle (the service answers "A"). -/
def okOracle : Nat → Option String := fun _ => some "A"

/-- The same always-successful oracle for the exception-based engines. -/
def okOracleE : Nat → Except String String := fun _ => .ok "A"

/-! ## Dataset loading -/

/-- One line of the JSONL dataset file, as seen by `json.loads`: a line
that parses to a record, a line that raises `JSONDecodeError`, or a blank
line. -/
inductive JsonLine where
  | okL (q : Question)
  | badL (raw : String)
  | blankL
  deriving DecidableEq, Repr

/-- `agir_dental_benchmark.load_dataset` (lines 39-54): per line, parse and
append, or print a warning and skip. A blank line also fails `json.loads`
and is warned about. Returns the questions and the number of warnings. -/
def load_dataset : List JsonLine → List Question × Nat
  | [] => ([], 0)
  | .okL q :: ls => ((load_dataset ls).1.cons q, (load_dataset ls).2)
  | .badL _ :: ls => ((load_dataset ls).1, (load_dataset ls).2 + 1)
  | .blankL :: ls => ((load_dataset ls).1, (load_dataset ls).2 + 1)

/-- `DentalBenchmark.load_test_data` (benchmark_base.py lines 71-84): blank
lines are skipped by `if line.strip():`, but `json.loads(line)` is not
guarded, so the first malformed line raises and aborts the whole load. -/
def load_test_data : List JsonLine → Except String (List Question)
  | [] => .ok []
  | .okL q :: ls => (load_test_data ls).map (fun r => q :: r)
  | .badL raw :: _ => .error ("Invalid JSON: " ++ raw)
  | .blankL :: ls => load_test_data ls

/-- The well-formed records of a dataset file, in order. -/
def wellItems (ls : List JsonLine) : List Question :=
  ls.filterMap (fun l => match l with | .okL q => some q | _ => none)

/-! ## Dreaddit engine (`agir_benchmark.py`): resume by last recorded id -/

/-- One row of the dreaddit dataset CSV. -/
structure Entry where
  id : String
  text : String
  label : String
  deriving DecidableEq, Repr

/-- `agir_benchmark.get_last_processed_id` (lines 30-47): `None` when the
results file is missing, otherwise the id column of its last data row
(`None` again when there are no data rows). The stored file is modelled
by the list of ids of its data rows. -/
def get_last_processed_id (stored : Option (List String)) : Option String :=
  match stored with
  | none => none
  | some ids => ids.getLast?

/-- The skip-until scan in `agir_benchmark.main` (lines 293-308): rows are
dropped until the row whose id equals the last processed id, that row is
dropped too, and the remaining rows are collected. When the id never
occurs, every row is consumed. -/
def skipThrough (lastId : String) : List Entry → List Entry
  | [] => []
  | e :: es => if e.id = lastId then es else skipThrough lastId es

/-- The entry selection of `agir_benchmark.main`: everything when starting
fresh, otherwise the suffix after the first row matching the last id. -/
def select_entries (lastId : Option String) (rows : List Entry) : List Entry :=
  match lastId with
  | none => rows
  | some l => skipThrough l rows

/-- One result row of `agir_benchmark.process_entry`. -/
structure DreadditResult where
  entry_id : String
  actual_label : String
  predicted_label : String
  is_correct : Bool
  deriving DecidableEq, Repr

/-- `agir_benchmark.process_entry` (lines 110-140): `None` on a failed
completion call, otherwise the classified entry. -/
def process_entry (oracle : Nat → Option String) (i : Nat) (e : Entry) :
    Option DreadditResult :=
  match oracle i with
  | none => none
  | some response =>
      some { entry_id := e.id
             actual_label := e.label
             predicted_label := stress_predicted_label response
             is_correct := stress_predicted_label response == e.label }

/-- The entry loop of `agir_benchmark.main` (lines 334-358): one completion
call per selected entry; successful results are appended to the CSV. -/
def dreaddit_run (oracle : Nat → Option String) : Nat → List Entry → List DreadditResult
  | _, [] => []
  | i, e :: es =>
      match process_entry oracle i e with
      | some r => r :: dreaddit_run oracle (i + 1) es
      | none => dreaddit_run oracle (i + 1) es

/-- A concrete dataset record used by the closed witness scenarios. -/
def mkQ (s : String) : Question :=
  { id := s, question := s, opa := "w", opb := "x", opc := "y", opd := "z", cop := 0 }

/-! ## Helper lemmas -/

lemma firstLabelIn_cases (l : List Char) :
    firstLabelIn l = none ∨ ∃ c, firstLabelIn l = some c ∧ c ∈ (['A', 'B', 'C', 'D'] : List Char) := by
  unfold firstLabelIn
  split
  · exact Or.inr ⟨'A', rfl, by decide⟩
  split
  · exact Or.inr ⟨'B', rfl, by decide⟩
  split
  · exact Or.inr ⟨'C', rfl, by decide⟩
  split
  · exact Or.inr ⟨'D', rfl, by decide⟩
  · exact Or.inl rfl

lemma extract_answer_mem (r : String) :
    extract_answer r ∈ (["A", "B", "C", "D", "INVALID"] : List String) := by
  unfold extract_answer
  split
  · decide
  · rcases firstLabelIn_cases (clean_response r) with h | ⟨c, h, hc⟩
    · rw [h]; decide
    · rw [h]
      fin_cases hc <;> decide

lemma option_map_cases (cop : Int) :
    option_map cop = "A" ∨ option_map cop = "B" ∨ option_map cop = "C" ∨
      option_map cop = "D" ∨ option_map cop = "" := by
  unfold option_map
  split
  · exact Or.inl rfl
  split
  · exact Or.inr (Or.inl rfl)
  split
  · exact Or.inr (Or.inr (Or.inl rfl))
  split
  · exact Or.inr (Or.inr (Or.inr (Or.inl rfl)))
  · exact Or.inr (Or.inr (Or.inr (Or.inr rfl)))

/-! ## Claims -/

/-- C1: the claim says the extractor returns the label whose character
occurs leftmost in the text, and that `"The answer is B."` with expected
`B` grades correct. Both are false on the code: the loop checks A, B, C, D
in that fixed order, so `"B A"` (leftmost label B) extracts "A", and
`"The answer is B."` contains the character A (in "ANSWER"), extracts "A"
and grades incorrect against expected B (`cop = 1`). -/
theorem C1_counterexample :
    extract_answer_choice "B A" = "A"
    ∧ extract_answer_choice "The answer is B." = "A"
    ∧ evaluate_answer (extract_answer_choice "The answer is B.") 1 = false := by
  decide

/-- C1 (amended): the extractor uppercases and trims; an exact single
letter is returned as is; otherwise the first label in the fixed order
A, B, C, D whose character occurs anywhere in the text wins (alphabetical
priority, not leftmost position) — so any text containing B but not A
extracts "B", while `"The answer is B."` extracts "A" (from the word
ANSWER) and grades incorrect against expected B. -/
theorem C1_amended (s : String)
    (hB : 'B' ∈ clean_response s) (hA : 'A' ∉ clean_response s) :
    extract_answer_choice s = "B"
    ∧ extract_answer_choice "The answer is B." = "A"
    ∧ evaluate_answer "A" 1 = false := by
  refine ⟨?_, by decide, by decide⟩
  unfold extract_answer_choice
  split
  next h =>
    rcases h with h | h | h | h
    · exact absurd (h ▸ hB) (by decide)
    · rw [h]
    · exact absurd (h ▸ hB) (by decide)
    · exact absurd (h ▸ hB) (by decide)
  next =>
    have h1 : firstLabelIn (clean_response s) = some 'B' := by
      unfold firstLabelIn
      rw [if_neg hA, if_pos hB]
    rw [h1]

/-- C1 witness: a concrete response containing B and no A extracts "B". -/
theorem C1_witness :
    ('B' ∈ clean_response "B." ∧ 'A' ∉ clean_response "B.")
    ∧ extract_answer_choice "B." = "B" :=
  ⟨⟨by decide, by decide⟩, (C1_amended "B." (by decide) (by decide)).1⟩

/-- C8: grading returns true only when the predicted label is non-sentinel
and equals the expected answer's letter; the sentinels (UNKNOWN/ERROR for
the base engine, INVALID for the agir engine) always grade incorrect. -/
theorem C8_grading (p r : String) (cop : Int) :
    (evaluate_answer p cop = true ↔ (p = option_map cop ∧ p ≠ "UNKNOWN" ∧ p ≠ "ERROR"))
    ∧ evaluate_answer "UNKNOWN" cop = false
    ∧ evaluate_answer "ERROR" cop = false
    ∧ agir_is_correct "INVALID" (agir_correct_answer cop) = false
    ∧ (agir_is_correct (extract_answer r) (agir_correct_answer cop) = true ↔
        (extract_answer r = agir_correct_answer cop ∧ extract_answer r ≠ "INVALID"
          ∧ extract_answer r ≠ "UNKNOWN" ∧ extract_answer r ≠ "ERROR")) := by
  have hmap := option_map_cases cop
  have hmem := extract_answer_mem r
  refine ⟨⟨?_, ?_⟩, ?_, ?_, ?_, ⟨?_, ?_⟩⟩
  · intro h
    have hp : p = option_map cop := by
      unfold evaluate_answer at h
      exact eq_of_beq h
    refine ⟨hp, ?_, ?_⟩ <;>
      rcases hmap with h1 | h1 | h1 | h1 | h1 <;> rw [hp, h1] <;> decide
  · rintro ⟨hp, -, -⟩
    unfold evaluate_answer
    rw [hp]
    exact beq_self_eq_true _
  · unfold evaluate_answer
    rcases hmap with h1 | h1 | h1 | h1 | h1 <;> rw [h1] <;> decide
  · unfold evaluate_answer
    rcases hmap with h1 | h1 | h1 | h1 | h1 <;> rw [h1] <;> decide
  · unfold agir_is_correct
    simp
  · intro h
    unfold agir_is_correct at h
    rw [Bool.and_eq_true] at h
    obtain ⟨h1, h2⟩ := h
    have he : extract_answer r = agir_correct_answer cop := eq_of_beq h1
    have hni : extract_answer r ≠ "INVALID" := by
      intro e
      rw [e] at h2
      simp at h2
    simp only [List.mem_cons, List.not_mem_nil, or_false] at hmem
    rcases hmem with hm | hm | hm | hm | hm
    · exact ⟨he, hni, by rw [hm]; decide, by rw [hm]; decide⟩
    · exact ⟨he, hni, by rw [hm]; decide, by rw [hm]; decide⟩
    · exact ⟨he, hni, by rw [hm]; decide, by rw [hm]; decide⟩
    · exact ⟨he, hni, by rw [hm]; decide, by rw [hm]; decide⟩
    · exact absurd hm hni
  · rintro ⟨he, hni, -, -⟩
    unfold agir_is_correct
    rw [Bool.and_eq_true]
    constructor
    · rw [he]
      exact beq_self_eq_true _
    · simpa using hni

/-- C9: the claim says every extractor returns the sentinel UNKNOWN when no
label token occurs and never infers a label from other content. False on
the code: the dreaddit classifier, given a response with no 0/1 token,
infers "1" from the keyword "stress" (fabricating a label), and the agir
dental extractor returns "INVALID", not "UNKNOWN". -/
theorem C9_counterexample :
    stress_predicted_label "we found stress" = "1"
    ∧ extract_answer "??" = "INVALID"
    ∧ ("1" : String) ≠ "UNKNOWN" ∧ ("INVALID" : String) ≠ "UNKNOWN" := by
  decide

/-- C9 (amended): when no label character occurs in the cleaned text, the
base extractor returns UNKNOWN and the agir dental extractor returns the
sentinel INVALID; the dreaddit classifier never returns a sentinel — its
output is always "0" or "1", inferred from keywords when no digit occurs. -/
theorem C9_amended (r : String)
    (hyp : ∀ c ∈ clean_response r, c ∉ (['A', 'B', 'C', 'D'] : List Char)) (hne : r ≠ "") :
    extract_answer_choice r = "UNKNOWN"
    ∧ extract_answer r = "INVALID"
    ∧ ∀ s : String, stress_predicted_label s = "0" ∨ stress_predicted_label s = "1" := by
  have hA : 'A' ∉ clean_response r := fun h => hyp 'A' h (by decide)
  have hB : 'B' ∉ clean_response r := fun h => hyp 'B' h (by decide)
  have hC : 'C' ∉ clean_response r := fun h => hyp 'C' h (by decide)
  have hD : 'D' ∉ clean_response r := fun h => hyp 'D' h (by decide)
  have hnone : firstLabelIn (clean_response r) = none := by
    unfold firstLabelIn
    rw [if_neg hA, if_neg hB, if_neg hC, if_neg hD]
  have hor : ¬(clean_response r = ['A'] ∨ clean_response r = ['B'] ∨
      clean_response r = ['C'] ∨ clean_response r = ['D']) := by
    rintro (h | h | h | h)
    · exact hA (by rw [h]; decide)
    · exact hB (by rw [h]; decide)
    · exact hC (by rw [h]; decide)
    · exact hD (by rw [h]; decide)
  refine ⟨?_, ?_, ?_⟩
  · unfold extract_answer_choice
    rw [if_neg hor, hnone]
  · unfold extract_answer
    rw [if_neg hne, hnone]
  · intro s
    unfold stress_predicted_label
    split
    · exact Or.inl rfl
    split
    · exact Or.inr rfl
    split
    · exact Or.inr rfl
    · exact Or.inl rfl

/-- C9 witness: a concrete label-free response extracts UNKNOWN in the base
engine. -/
theorem C9_witness :
    ((∀ c ∈ clean_response "xyz?", c ∉ (['A', 'B', 'C', 'D'] : List Char)) ∧ "xyz?" ≠ "")
    ∧ extract_answer_choice "xyz?" = "UNKNOWN" :=
  ⟨⟨by decide, by decide⟩, (C9_amended "xyz?" (by decide) (by decide)).1⟩

/-- C2: the agir dental engine re-processes the last completed item after a
resume. Concretely: on the dataset `[q0, q1]`, a run interrupted right
after item index 0 completed has recorded q0's result and saved
`save_progress(processed_count = 1, total = 2, last_processed_index = 0)`;
the restarted run sets `start_index = get_last_processed_index() = 0` and
processes `questions[0:]`, so q0's id appears twice in the results — the
claim requires every item id exactly once. -/
theorem C2_code_bug :
    ((agir_run_from okOracle ([mkQ "q0", mkQ "q1"].take 1) 0
        ++ agir_run_from okOracle [mkQ "q0", mkQ "q1"]
            (get_last_processed_index (some (save_progress 1 2 0)))).map
        (fun r => r.question_id)).count "q0" = 2 := by
  decide

/-- C3: a second invocation after a completed run is not a no-op. On the
two-item dataset: the agir engine's final `save_progress` stored
`last_processed_index = 1`, so the rerun selects one question and makes
one completion call (not zero); the openai engine cleared its checkpoint
on completion, so the rerun loads `(0, [])` and makes one call per item. -/
theorem C3_counterexample :
    engine_calls [mkQ "q0", mkQ "q1"]
        (get_last_processed_index (some (save_progress 2 2 1))) = 1
    ∧ (openai_run_full okOracleE "p" [mkQ "q0", mkQ "q1"]).ckpt = none
    ∧ load_checkpoint (openai_run_full okOracleE "p" [mkQ "q0", mkQ "q1"]).ckpt "p" 2 = (0, [])
    ∧ engine_calls [mkQ "q0", mkQ "q1"] 0 = 2
    ∧ (1 : Nat) ≠ 0 ∧ (2 : Nat) ≠ 0 := by
  decide

/-- C3 (amended): re-invoking after completion repeats external calls and
never reports already-complete: the openai engine deletes its checkpoint
on completion so the rerun resumes at index 0 with one completion call per
item; the agir engine's stored `last_processed_index` is `total - 1`, so
the rerun resumes there, makes one completion call and re-records the
final item. -/
theorem C3_amended (oracle : Nat → Except String String) (path : String)
    (qs : List Question) (h : 1 ≤ qs.length) :
    (openai_run_full oracle path qs).ckpt = none
    ∧ load_checkpoint (openai_run_full oracle path qs).ckpt path qs.length = (0, [])
    ∧ engine_calls qs 0 = qs.length
    ∧ get_last_processed_index (some (save_progress qs.length qs.length (qs.length - 1)))
        = qs.length - 1
    ∧ engine_calls qs (qs.length - 1) = 1
    ∧ agir_run_from okOracle qs (qs.length - 1) ≠ [] := by
  have hd : (qs.drop (qs.length - 1)).length = 1 := by
    rw [List.length_drop]
    omega
  refine ⟨rfl, rfl, by simp [engine_calls], rfl, ?_, ?_⟩
  · unfold engine_calls
    omega
  · unfold agir_run_from
    cases h1 : qs.drop (qs.length - 1) with
    | nil => rw [h1] at hd; simp at hd
    | cons q t =>
        cases t with
        | nil => simp [agir_run_go, process_question, okOracle]
        | cons q2 t2 => rw [h1] at hd; simp at hd

/-- C3 witness: a concrete one-item dataset after a complete run. -/
theorem C3_witness :
    1 ≤ [mkQ "q0"].length
    ∧ engine_calls [mkQ "q0"] ([mkQ "q0"].length - 1) = 1 :=
  ⟨by decide, (C3_amended okOracleE "p" [mkQ "q0"] (by decide)).2.2.2.2.1⟩

/-- Auxiliary for C10: the skip-until scan consumes every row when the
last processed id occurs nowhere in the dataset. -/
lemma skipThrough_eq_nil (l : String) (rows : List Entry)
    (hno : ∀ e ∈ rows, e.id ≠ l) : skipThrough l rows = [] := by
  induction rows with
  | nil => rfl
  | cons e es ih =>
      unfold skipThrough
      rw [if_neg (hno e (List.mem_cons_self e es))]
      exact ih fun x hx => hno x (List.mem_cons_of_mem e hx)

/-- C10: in the resume-by-last-id engine, when the results file's last
recorded id occurs nowhere in the current dataset, the skip-until-last-id
scan consumes every row, zero entries are selected and the run issues no
completion call beyond the connectivity probe. -/
theorem C10_stale_id_skips_all (resultIds : List String) (rows : List Entry) (l : String)
    (hlast : get_last_processed_id (some resultIds) = some l)
    (hno : ∀ e ∈ rows, e.id ≠ l) :
    select_entries (get_last_processed_id (some resultIds)) rows = []
    ∧ ∀ oracle : Nat → Option String,
        dreaddit_run oracle 0 (select_entries (get_last_processed_id (some resultIds)) rows) = [] := by
  rw [hlast]
  have hsel : select_entries (some l) rows = [] := by
    unfold select_entries
    exact skipThrough_eq_nil l rows hno
  exact ⟨hsel, fun oracle => by rw [hsel]; rfl⟩

/-- Auxiliary: the base engine records exactly one result per question. -/
lemma base_run_go_length (oracle : Nat → Except String String) :
    ∀ (qs : List Question) (i : Nat), (base_run_go oracle i qs).length = qs.length := by
  intro qs
  induction qs with
  | nil => intro i; rfl
  | cons q t ih => intro i; simp [base_run_go, ih]

/-- Auxiliary: the base engine's j-th recorded result is the processed
j-th question. -/
lemma base_run_go_getElem (oracle : Nat → Except String String) :
    ∀ (qs : List Question) (s j : Nat) (h : j < qs.length),
      (base_run_go oracle s qs)[j]? = some (base_process oracle (s + j) (qs.get ⟨j, h⟩)) := by
  intro qs
  induction qs with
  | nil => intro s j h; exact absurd h (by simp)
  | cons q t ih =>
      intro s j h
      cases j with
      | zero => simp [base_run_go]
      | succ j' =>
          have h' : j' < t.length := by simpa using h
          have := ih (s + 1) j' h'
          simpa [base_run_go, Nat.add_assoc, Nat.add_comm 1 j'] using this

/-- Auxiliary: one openai-engine step always appends exactly the processed
item's result in memory. -/
lemma openai_step_results (oracle : Nat → Except String String) (path : String)
    (total freq i : Nat) (q : Question) (st : CkptState) :
    (openai_step oracle path total freq i q st).results = st.results ++ [base_process oracle i q] := by
  unfold openai_step
  cases h : oracle i with
  | error e => rfl
  | ok v =>
      dsimp only
      split <;> rfl

/-- Auxiliary: one openai-engine step keeps the durable store at most
`(i + 1) % 5` results behind the in-memory results. -/
lemma openai_step_inv (oracle : Nat → Except String String) (path : String)
    (total i : Nat) (q : Question) (st : CkptState)
    (h1 : durableCount st ≤ st.results.length)
    (h2 : st.results.length - durableCount st ≤ i % 5) :
    durableCount (openai_step oracle path total 5 i q st)
      ≤ (openai_step oracle path total 5 i q st).results.length
    ∧ (openai_step oracle path total 5 i q st).results.length
        - durableCount (openai_step oracle path total 5 i q st) ≤ (i + 1) % 5 := by
  unfold openai_step
  cases h : oracle i with
  | error e =>
      dsimp only
      refine ⟨?_, ?_⟩
      · show (st.results ++ [base_process oracle i q]).length
            ≤ (st.results ++ [base_process oracle i q]).length
        exact le_refl _
      · show (st.results ++ [base_process oracle i q]).length
            - (st.results ++ [base_process oracle i q]).length ≤ (i + 1) % 5
        omega
  | ok v =>
      dsimp only
      split
      next hm =>
        refine ⟨?_, ?_⟩
        · show (st.results ++ [base_process oracle i q]).length
              ≤ (st.results ++ [base_process oracle i q]).length
          exact le_refl _
        · show (st.results ++ [base_process oracle i q]).length
              - (st.results ++ [base_process oracle i q]).length ≤ (i + 1) % 5
          omega
      next hm =>
        refine ⟨?_, ?_⟩
        · show durableCount st ≤ (st.results ++ [base_process oracle i q]).length
          simp only [List.length_append, List.length_singleton]
          omega
        · show (st.results ++ [base_process oracle i q]).length
              - durableCount st ≤ (i + 1) % 5
          simp only [List.length_append, List.length_singleton]
          omega

/-- Auxiliary: over a whole openai-engine run segment, the in-memory list
grows by one per item and the durable store trails it by at most
`(final index) % 5` results. -/
lemma openai_run_go_inv (oracle : Nat → Except String String) (path : String) (total : Nat) :
    ∀ (qs : List Question) (i : Nat) (st : CkptState),
      durableCount st ≤ st.results.length →
      st.results.length - durableCount st ≤ i % 5 →
      (openai_run_go oracle path total 5 i qs st).results.length = st.results.length + qs.length
      ∧ durableCount (openai_run_go oracle path total 5 i qs st)
          ≤ (openai_run_go oracle path total 5 i qs st).results.length
      ∧ (openai_run_go oracle path total 5 i qs st).results.length
          - durableCount (openai_run_go oracle path total 5 i qs st) ≤ (i + qs.length) % 5 := by
  intro qs
  induction qs with
  | nil =>
      intro i st h1 h2
      exact ⟨by simp [openai_run_go], by simpa [openai_run_go] using h1,
        by simpa [openai_run_go] using h2⟩
  | cons q t ih =>
      intro i st h1 h2
      have hstep := openai_step_inv oracle path total i q st h1 h2
      have hres := openai_step_results oracle path total 5 i q st
      have hlen : (openai_step oracle path total 5 i q st).results.length
          = st.results.length + 1 := by
        rw [hres]
        simp
      have hrec := ih (i + 1) (openai_step oracle path total 5 i q st) hstep.1 hstep.2
      refine ⟨?_, hrec.2.1, ?_⟩
      · show (openai_run_go oracle path total 5 (i + 1) t _).results.length = _
        rw [hrec.1, hlen]
        simp [Nat.add_assoc, Nat.add_comm 1 t.length]
      · show (openai_run_go oracle path total 5 (i + 1) t _).results.length
            - durableCount (openai_run_go oracle path total 5 (i + 1) t _) ≤ _
        have harith : i + 1 + t.length = i + (q :: t).length := by simp; omega
        rw [← harith]
        exact hrec.2.2

/-- C4: the claim says every engine durably appends each item's result
before the next item starts, so durable count always equals processed
count. False for the checkpointed openai engine: it persists results only
in its periodic checkpoint (every `save_frequency = 5` items on success),
so after 3 fully processed items nothing is durably stored — a crash there
loses a batch of 3 graded items, not just the in-flight one. -/
theorem C4_counterexample :
    (openai_run_go okOracleE "p" 3 5 0 [mkQ "q0", mkQ "q1", mkQ "q2"]
        { ckpt := none, results := [] }).results.length = 3
    ∧ durableCount (openai_run_go okOracleE "p" 3 5 0 [mkQ "q0", mkQ "q1", mkQ "q2"]
        { ckpt := none, results := [] }) = 0
    ∧ (0 : Nat) ≠ 3 := by
  decide

/-- C4 (amended): the base CSV engine writes one durable row per item
inside the iteration, so after any k processed items the durable store
holds exactly k results; the checkpointed openai engine only guarantees
that the durable store trails the processed count by at most
`save_frequency - 1 = 4` graded items (a crash can lose up to 4 graded
items plus the in-flight one). -/
theorem C4_amended (oracle : Nat → Except String String) (path : String)
    (qs : List Question) (k : Nat) :
    (base_run_go oracle 0 (qs.take k)).length = min k qs.length
    ∧ durableCount (openai_run_go oracle path qs.length 5 0 (qs.take k)
        { ckpt := none, results := [] })
      ≤ (openai_run_go oracle path qs.length 5 0 (qs.take k)
        { ckpt := none, results := [] }).results.length
    ∧ (openai_run_go oracle path qs.length 5 0 (qs.take k)
        { ckpt := none, results := [] }).results.length
      - durableCount (openai_run_go oracle path qs.length 5 0 (qs.take k)
        { ckpt := none, results := [] }) ≤ 4 := by
  have hbase := base_run_go_length oracle (qs.take k) 0
  have hinv := openai_run_go_inv oracle path qs.length (qs.take k) 0
    { ckpt := none, results := [] } (by simp [durableCount]) (by simp [durableCount])
  refine ⟨by rw [hbase]; simp, hinv.2.1, ?_⟩
  have := hinv.2.2
  omega

/-- A completion oracle that fails for item index 1 and succeeds elsewhere
(the agir engines receive `None` after exhausted retries). -/
def failAt1 : Nat → Option String := fun i => if i = 1 then none else some "A"

/-- The same failure pattern for the exception-based engines. -/
def failAt1E : Nat → Except String String := fun i => if i = 1 then .error "boom" else .ok "A"

/-- Auxiliary: a successful `process_question` records the item's index and
implies the completion call succeeded. -/
lemma process_question_some (oracle : Nat → Option String) (i : Nat) (q : Question)
    (r : AgirResult) (h : process_question oracle i q = some r) :
    r.question_index = i ∧ oracle i ≠ none := by
  unfold process_question at h
  cases ho : oracle i with
  | none => rw [ho] at h; exact absurd h (by simp)
  | some resp =>
      rw [ho] at h
      have he := Option.some.inj h
      constructor
      · rw [← he]
      · simp [ho]

/-- Auxiliary: every record of an agir run stems from a successful
completion call at its recorded index. -/
lemma agir_run_go_index (oracle : Nat → Option String) :
    ∀ (qs : List Question) (s : Nat) (r : AgirResult),
      r ∈ agir_run_go oracle s qs → oracle r.question_index ≠ none := by
  intro qs
  induction qs with
  | nil => intro s r hr; simp [agir_run_go] at hr
  | cons q t ih =>
      intro s r hr
      unfold agir_run_go at hr
      cases hp : process_question oracle s q with
      | some r0 =>
          rw [hp] at hr
          rcases List.mem_cons.mp hr with he | ht
          · have := process_question_some oracle s q r0 hp
            rw [he, this.1]
            exact this.2
          · exact ih (s + 1) r ht
      | none =>
          rw [hp] at hr
          exact ih (s + 1) r hr

/-- Auxiliary: every item whose completion call succeeds is recorded by the
agir run, at its index. -/
lemma agir_run_go_covers (oracle : Nat → Option String) :
    ∀ (qs : List Question) (s j : Nat), j < qs.length → oracle (s + j) ≠ none →
      ∃ r ∈ agir_run_go oracle s qs, r.question_index = s + j := by
  intro qs
  induction qs with
  | nil => intro s j hj; exact absurd hj (by simp)
  | cons q t ih =>
      intro s j hj ho
      cases j with
      | zero =>
          cases ho2 : oracle s with
          | none => exact absurd (by simpa using ho2) (by simpa using ho)
          | some resp =>
              have hp : process_question oracle s q = some
                  { question_id := q.id, question_index := s
                    correct_answer := agir_correct_answer q.cop
                    predicted_answer := extract_answer resp
                    is_correct := agir_is_correct (extract_answer resp) (agir_correct_answer q.cop)
                    raw_response := resp } := by
                unfold process_question
                rw [ho2]
              have hmem : ({ question_id := q.id, question_index := s
                             correct_answer := agir_correct_answer q.cop
                             predicted_answer := extract_answer resp
                             is_correct := agir_is_correct (extract_answer resp)
                               (agir_correct_answer q.cop)
                             raw_response := resp } : AgirResult)
                  ∈ agir_run_go oracle s (q :: t) := by
                unfold agir_run_go
                rw [hp]
                exact List.mem_cons_self _ _
              exact ⟨_, hmem, by simp⟩
      | succ j' =>
          have hj' : j' < t.length := by simpa using hj
          have ho' : oracle (s + 1 + j') ≠ none := by
            have : s + 1 + j' = s + (j' + 1) := by omega
            rw [this]
            exact ho
          obtain ⟨r, hr, hidx⟩ := ih (s + 1) j' hj' ho'
          refine ⟨r, ?_, by rw [hidx]; omega⟩
          unfold agir_run_go
          cases hp : process_question oracle s q with
          | some r0 => exact List.mem_cons_of_mem _ hr
          | none => exact hr

/-- C5: the claim says every failed item is converted into exactly one
recorded EvaluationResult with predicted ERROR. False for the agir dental
engine: when `process_question` returns `None` the item is only logged and
nothing is recorded — on a 3-item dataset with item 1 failing, only 2
results exist and none carries the ERROR sentinel. -/
theorem C5_counterexample :
    (agir_run_go failAt1 0 [mkQ "q0", mkQ "q1", mkQ "q2"]).length = 2
    ∧ ∀ r ∈ agir_run_go failAt1 0 [mkQ "q0", mkQ "q1", mkQ "q2"],
        r.predicted_answer ≠ "ERROR" := by
  decide

/-- C5 (amended): in the base engine a per-item failure is caught and
recorded as exactly one result with predicted ERROR, `is_correct = false`
and the failure text, and every item still yields a result; in the agir
dental engine a failed item is logged and skipped with no record at all,
while all items whose calls succeed are still processed and recorded. -/
theorem C5_amended (oracle : Nat → Except String String) (oracleA : Nat → Option String)
    (qs : List Question) (i : Nat) (e : String)
    (h1 : oracle i = .error e) (h2 : i < qs.length) (h3 : oracleA i = none) :
    (base_run_go oracle 0 qs).length = qs.length
    ∧ (base_run_go oracle 0 qs)[i]? =
        some { question_id := (qs.get ⟨i, h2⟩).id, predicted_answer := "ERROR"
               is_correct := false, response := "Error: " ++ e }
    ∧ (∀ r ∈ agir_run_go oracleA 0 qs, r.question_index ≠ i)
    ∧ ∀ j, j < qs.length → oracleA j ≠ none →
        ∃ r ∈ agir_run_go oracleA 0 qs, r.question_index = j := by
  refine ⟨base_run_go_length oracle qs 0, ?_, ?_, ?_⟩
  · have := base_run_go_getElem oracle qs 0 i h2
    rw [this]
    unfold base_process
    rw [show (0 + i) = i by omega, h1]
  · intro r hr hqi
    have := agir_run_go_index oracleA qs 0 r hr
    rw [hqi] at this
    exact this h3
  · intro j hj ho
    have := agir_run_go_covers oracleA qs 0 j hj (by simpa using ho)
    simpa using this

/-- C5 witness: concrete oracles failing at item 1 over a 3-item dataset. -/
theorem C5_witness :
    (failAt1E 1 = .error "boom" ∧ 1 < [mkQ "q0", mkQ "q1", mkQ "q2"].length ∧ failAt1 1 = none)
    ∧ (base_run_go failAt1E 0 [mkQ "q0", mkQ "q1", mkQ "q2"]).length
        = [mkQ "q0", mkQ "q1", mkQ "q2"].length :=
  ⟨⟨rfl, by decide, rfl⟩,
    (C5_amended failAt1E failAt1 [mkQ "q0", mkQ "q1", mkQ "q2"] 1 "boom" rfl (by decide) rfl).1⟩

/-- C6: the claim says every loader skips malformed records and never fails
the load. False for the base loader: `load_test_data` wraps no try/except
around `json.loads`, so a file with one well-formed and one malformed line
aborts instead of returning the one well-formed item — while the agir
loader returns it and reports one warning. -/
theorem C6_counterexample :
    load_test_data [JsonLine.okL (mkQ "q0"), JsonLine.badL "oops"]
      = .error "Invalid JSON: oops"
    ∧ (load_dataset [JsonLine.okL (mkQ "q0"), JsonLine.badL "oops"]).1.length = 1
    ∧ (load_dataset [JsonLine.okL (mkQ "q0"), JsonLine.badL "oops"]).2 = 1 := by
  refine ⟨rfl, rfl, rfl⟩

/-- C6 (amended): the agir loader is corruption tolerant — it always
returns exactly the well-formed records in order and warns once per
non-parsing (malformed or blank) line; the base loader silently skips
blank lines and succeeds only on files with no malformed line, aborting
the whole load on the first malformed record. -/
theorem C6_amended (lines : List JsonLine) :
    (load_dataset lines).1 = wellItems lines
    ∧ (load_dataset lines).1.length + (load_dataset lines).2 = lines.length
    ∧ ((∀ raw, JsonLine.badL raw ∉ lines) → load_test_data lines = .ok (wellItems lines)) := by
  induction lines with
  | nil => exact ⟨rfl, rfl, fun _ => rfl⟩
  | cons l t ih =>
      obtain ⟨ih1, ih2, ih3⟩ := ih
      cases l with
      | okL q =>
          refine ⟨?_, ?_, ?_⟩
          · simp [load_dataset, wellItems, List.filterMap_cons] at ih1 ⊢
            exact ih1
          · simp [load_dataset]
            omega
          · intro hno
            have hno' : ∀ raw, JsonLine.badL raw ∉ t :=
              fun raw h => hno raw (List.mem_cons_of_mem _ h)
            simp [load_test_data, ih3 hno', wellItems, List.filterMap_cons, Except.map]
      | badL raw =>
          refine ⟨?_, ?_, ?_⟩
          · simpa [load_dataset, wellItems, List.filterMap_cons] using ih1
          · simp [load_dataset]
            omega
          · intro hno
            exact absurd (List.mem_cons_self _ _) (hno raw)
      | blankL =>
          refine ⟨?_, ?_, ?_⟩
          · simpa [load_dataset, wellItems, List.filterMap_cons] using ih1
          · simp [load_dataset]
            omega
          · intro hno
            have hno' : ∀ raw, JsonLine.badL raw ∉ t :=
              fun raw h => hno raw (List.mem_cons_of_mem _ h)
            simpa [load_test_data, wellItems, List.filterMap_cons] using ih3 hno'

/-- C6 witness: on a file with one record and one blank line, the base
loader succeeds with exactly the one well-formed item. -/
theorem C6_witness :
    load_test_data [JsonLine.okL (mkQ "q0"), JsonLine.blankL]
      = .ok (wellItems [JsonLine.okL (mkQ "q0"), JsonLine.blankL]) :=
  (C6_amended [JsonLine.okL (mkQ "q0"), JsonLine.blankL]).2.2
    (fun raw h => by simp at h)

/-- C7: the claim says every stored progress record whose fingerprint
mismatches the current work source is discarded, resuming from 0. False
for the agir engine: `get_last_processed_index` validates nothing — a
progress record written for a 500-item dataset (`total_count = 500`) is
silently accepted against a 100-item dataset and resumption starts at its
stored index 50, not 0. -/
theorem C7_counterexample :
    (save_progress 50 500 50).total_count ≠ 100
    ∧ get_last_processed_index (some (save_progress 50 500 50)) = 50
    ∧ (50 : Nat) ≠ 0 := by
  decide

/-- C7 (amended): the openai checkpoint loader does discard any stored
checkpoint whose data path or question count mismatch, resuming with
`(0, [])`; the agir progress loader performs no fingerprint validation at
all and always resumes at the stored `last_processed_index`. -/
theorem C7_amended (c : Checkpoint) (path : String) (n : Nat)
    (h : c.data_path ≠ path ∨ c.total_questions ≠ n) :
    load_checkpoint (some c) path n = (0, [])
    ∧ ∀ p : Progress, get_last_processed_index (some p) = p.last_processed_index := by
  refine ⟨?_, fun p => rfl⟩
  show (if c.data_path ≠ path then ((0 : Nat), ([] : List BaseResult))
      else if c.total_questions ≠ n then ((0 : Nat), ([] : List BaseResult))
      else (c.current_index, c.results_so_far)) = (0, [])
  rcases h with h | h
  · rw [if_pos h]
  · by_cases h2 : c.data_path = path
    · rw [if_neg (not_not_intro h2), if_pos h]
    · rw [if_pos h2]

/-- C7 witness: a concrete path-mismatched checkpoint is discarded. -/
theorem C7_witness :
    ((save_checkpoint "a" 10 7 []).data_path ≠ "b"
      ∨ (save_checkpoint "a" 10 7 []).total_questions ≠ 10)
    ∧ load_checkpoint (some (save_checkpoint "a" 10 7 [])) "b" 10 = (0, []) :=
  ⟨Or.inl (by decide),
    (C7_amended (save_checkpoint "a" 10 7 []) "b" 10 (Or.inl (by decide))).1⟩

/-- C10 witness: a concrete results file whose last id "r2" is absent from
the dataset selects zero entries. -/
theorem C10_witness :
    (get_last_processed_id (some ["r1", "r2"]) = some "r2"
      ∧ ∀ e ∈ [({ id := "a", text := "t", label := "0" } : Entry)], e.id ≠ "r2")
    ∧ select_entries (get_last_processed_id (some ["r1", "r2"]))
        [({ id := "a", text := "t", label := "0" } : Entry)] = [] :=
  ⟨⟨by decide, by decide⟩,
    (C10_stale_id_skips_all ["r1", "r2"] [{ id := "a", text := "t", label := "0" }] "r2"
      (by decide) (by decide)).1⟩

end DentalBench
